import Mathlib

/-!
Verification development for the Dig Dug tunnel game (src/main.cpp).

The per-frame simulation core is shallowly embedded: Cplusplus ints become
Int, float positions become exact rationals, the global rand() stream
becomes an explicit function from call index to Nat, and pointer identity
of home tunnels becomes an index into the tunnel list.  Drawing, window
and file IO are outside the model; SaveHighScore is modelled by its effect
on the in-memory high score.
-/

namespace DigDug

/-- Grid constants from main.cpp. -/
def TILE_SIZE : Int := 32

/-- Grid width in tiles. -/
def GRID_WIDTH : Int := 25

/-- Grid height in tiles. -/
def GRID_HEIGHT : Int := 18

/-- Starting number of lives. -/
def START_LIVES : Int := 3

/-- Respawn countdown in frames. -/
def RESPAWN_DELAY : Int := 180

/-- Death flash duration in frames. -/
def DEATH_FLASH_TIME : Int := 30

/-- Tunnel orientations, as in the C enum TunnelDirection. -/
inductive TunnelDirection where
  | HORIZONTAL
  | VERTICAL
  | NONE
deriving DecidableEq, Repr

/-- The Tunnel struct: origin tile, length in tiles, orientation, plus the
dug and activated flags with their C default initializers. -/
structure Tunnel where
  startX : Int
  startY : Int
  length : Int
  direction : TunnelDirection
  dug : Bool := true
  activated : Bool := false
deriving DecidableEq, Repr

/-- Tunnel.Contains from main.cpp: tile membership in the tunnel span. -/
def Tunnel.Contains (t : Tunnel) (x y : Int) : Bool :=
  match t.direction with
  | .HORIZONTAL => decide (y = t.startY ∧ t.startX ≤ x ∧ x < t.startX + t.length)
  | .VERTICAL => decide (x = t.startX ∧ t.startY ≤ y ∧ y < t.startY + t.length)
  | .NONE => false

/-- Tunnel.Intersects from main.cpp, branch for branch: same-orientation
tunnels compare the shared row or column and their 1-D segments; mixed
orientations test the crossing point. -/
def Tunnel.Intersects (t other : Tunnel) : Bool :=
  if t.direction = .HORIZONTAL ∧ other.direction = .HORIZONTAL then
    if t.startY ≠ other.startY then false
    else !(decide (t.startX + t.length ≤ other.startX ∨
                   other.startX + other.length ≤ t.startX))
  else if t.direction = .VERTICAL ∧ other.direction = .VERTICAL then
    if t.startX ≠ other.startX then false
    else !(decide (t.startY + t.length ≤ other.startY ∨
                   other.startY + other.length ≤ t.startY))
  else
    if t.direction = .HORIZONTAL then
      decide ((other.startX ≥ t.startX ∧ other.startX < t.startX + t.length) ∧
              (t.startY ≥ other.startY ∧ t.startY < other.startY + other.length))
    else
      decide ((t.startX ≥ other.startX ∧ t.startX < other.startX + other.length) ∧
              (other.startY ≥ t.startY ∧ other.startY < t.startY + t.length))

/-- World.IsValidTunnel: bounds check per orientation (the else branch of
the C code covers VERTICAL and NONE alike), then no intersection with any
already accepted tunnel. -/
def isValidTunnel (tunnels : List Tunnel) (t : Tunnel) : Bool :=
  (match t.direction with
   | .HORIZONTAL =>
       decide (1 ≤ t.startX ∧ t.startX + t.length < GRID_WIDTH - 1 ∧
               1 ≤ t.startY ∧ t.startY < GRID_HEIGHT - 1)
   | _ =>
       decide (1 ≤ t.startX ∧ t.startX < GRID_WIDTH - 1 ∧
               1 ≤ t.startY ∧ t.startY + t.length < GRID_HEIGHT - 1))
  && tunnels.all (fun u => !(t.Intersects u))

/-- Horizontal candidate of World.CreateTunnels: three successive rand()
draws (stream position k) give x in [2, GRID_WIDTH-10+2), y in
[2, GRID_HEIGHT-4+2) and length in [4, 9). -/
def hCandidate (rnd : Nat → Nat) (k : Nat) : Tunnel :=
  { startX := Int.ofNat (rnd k % 15 + 2)
    startY := Int.ofNat (rnd (k + 1) % 14 + 2)
    length := Int.ofNat (rnd (k + 2) % 5 + 4)
    direction := .HORIZONTAL }

/-- Vertical candidate of World.CreateTunnels: x in [2, GRID_WIDTH-4+2),
y in [2, GRID_HEIGHT-10+2), length in [4, 9). -/
def vCandidate (rnd : Nat → Nat) (k : Nat) : Tunnel :=
  { startX := Int.ofNat (rnd k % 21 + 2)
    startY := Int.ofNat (rnd (k + 1) % 8 + 2)
    length := Int.ofNat (rnd (k + 2) % 5 + 4)
    direction := .VERTICAL }

/-- One rejection-sampling phase of World.CreateTunnels.  fuel is the
remaining attempt budget (the C loop bounds attempts by 50), k the rand()
stream position (each attempt consumes three draws), acc the tunnels
accepted so far.  The loop stops when the target count is reached or the
budget is exhausted.  Returns the tunnels and the final stream position. -/
def genPhase (cand : (Nat → Nat) → Nat → Tunnel) (rnd : Nat → Nat) (target : Nat) :
    Nat → Nat → List Tunnel → List Tunnel × Nat
  | 0, k, acc => (acc, k)
  | fuel + 1, k, acc =>
    if acc.length < target then
      let t := cand rnd k
      let acc2 := if isValidTunnel acc t then acc ++ [t] else acc
      genPhase cand rnd target fuel (k + 3) acc2
    else (acc, k)

/-- First phase of World.CreateTunnels: up to 4 horizontal tunnels within
50 attempts, starting from an empty list at stream position 0. -/
def createTunnelsPhase1 (rnd : Nat → Nat) : List Tunnel × Nat :=
  genPhase hCandidate rnd 4 50 0 []

/-- Second phase: up to 8 tunnels in total (so up to 4 more, vertical)
within 50 fresh attempts, continuing from the first phase. -/
def createTunnelsPhase2 (rnd : Nat → Nat) : List Tunnel × Nat :=
  let p1 := createTunnelsPhase1 rnd
  genPhase vCandidate rnd 8 50 p1.2 p1.1

/-- World.CreateTunnels: the accepted tunnel layout. -/
def createTunnels (rnd : Nat → Nat) : List Tunnel :=
  (createTunnelsPhase2 rnd).1

/-- World.GetTunnelAt: the first tunnel of the list containing the tile,
none when no tunnel does (the C code returns a pointer or nullptr). -/
def getTunnelAt (tunnels : List Tunnel) (gridX gridY : Int) : Option Tunnel :=
  tunnels.find? (fun t => t.Contains gridX gridY)

/-- Every accepted tunnel was validated against exactly the tunnels
accepted before it: position i of the layout passed isValidTunnel against
the first i entries. -/
def validChain (l : List Tunnel) : Prop :=
  ∀ i t, l.get? i = some t → isValidTunnel (l.take i) t = true

theorem validChain_nil : validChain [] := by
  intro i t h
  cases i <;> simp [List.get?] at h

theorem validChain_append (l : List Tunnel) (t : Tunnel)
    (hc : validChain l) (hv : isValidTunnel l t = true) :
    validChain (l ++ [t]) := by
  intro i u hu
  by_cases hi : i < l.length
  · rw [List.get?_append hi] at hu
    rw [List.take_append_of_le_length (le_of_lt hi)]
    exact hc i u hu
  · push_neg at hi
    rw [List.get?_append_right hi] at hu
    have hi0 : i - l.length = 0 := by
      by_contra hne
      rcases Nat.exists_eq_succ_of_ne_zero hne with ⟨j, hj⟩
      rw [hj] at hu
      simp [List.get?] at hu
    rw [hi0] at hu
    simp [List.get?] at hu
    have hieq : i = l.length := by omega
    rw [hieq, List.take_left, ← hu]
    exact hv

theorem genPhase_validChain (cand : (Nat → Nat) → Nat → Tunnel) (rnd : Nat → Nat)
    (target fuel k : Nat) (acc : List Tunnel) (hc : validChain acc) :
    validChain (genPhase cand rnd target fuel k acc).1 := by
  induction fuel generalizing k acc with
  | zero => simpa [genPhase] using hc
  | succ n ih =>
    by_cases h : acc.length < target
    · by_cases hv : isValidTunnel acc (cand rnd k) = true
      · simp only [genPhase, h, if_true, hv]
        exact ih (k + 3) _ (validChain_append _ _ hc hv)
      · simp only [genPhase, h, if_true, hv, if_false]
        exact ih (k + 3) _ hc
    · simpa [genPhase, h] using hc

theorem genPhase_length_le (cand : (Nat → Nat) → Nat → Tunnel) (rnd : Nat → Nat)
    (target fuel k : Nat) (acc : List Tunnel) (hacc : acc.length ≤ target) :
    (genPhase cand rnd target fuel k acc).1.length ≤ target := by
  induction fuel generalizing k acc with
  | zero => simpa [genPhase] using hacc
  | succ n ih =>
    by_cases h : acc.length < target
    · by_cases hv : isValidTunnel acc (cand rnd k) = true
      · simp only [genPhase, h, if_true, hv]
        exact ih (k + 3) _ (by simp; omega)
      · simp only [genPhase, h, if_true, hv, if_false]
        exact ih (k + 3) _ hacc
    · simpa [genPhase, h] using hacc

theorem genPhase_mem (cand : (Nat → Nat) → Nat → Tunnel) (rnd : Nat → Nat)
    (target fuel k : Nat) (acc : List Tunnel) (t : Tunnel)
    (ht : t ∈ (genPhase cand rnd target fuel k acc).1) :
    t ∈ acc ∨ ∃ j, t = cand rnd j := by
  induction fuel generalizing k acc with
  | zero =>
    simp only [genPhase] at ht
    exact Or.inl ht
  | succ n ih =>
    by_cases h : acc.length < target
    · by_cases hv : isValidTunnel acc (cand rnd k) = true
      · simp only [genPhase, h, if_true, hv] at ht
        rcases ih (k + 3) _ ht with hmem | hj
        · rcases List.mem_append.mp hmem with hl | hr
          · exact Or.inl hl
          · exact Or.inr ⟨k, by simpa using hr⟩
        · exact Or.inr hj
      · simp only [genPhase, h, if_true, hv, if_false] at ht
        exact ih (k + 3) _ ht
    · simp only [genPhase, h, if_false] at ht
      exact Or.inl ht

theorem genPhase_prefix (cand : (Nat → Nat) → Nat → Tunnel) (rnd : Nat → Nat)
    (target fuel k : Nat) (acc : List Tunnel) :
    ∃ ext, (genPhase cand rnd target fuel k acc).1 = acc ++ ext ∧
      ∀ t ∈ ext, ∃ j, t = cand rnd j := by
  induction fuel generalizing k acc with
  | zero => exact ⟨[], by simp [genPhase], by simp⟩
  | succ n ih =>
    by_cases h : acc.length < target
    · by_cases hv : isValidTunnel acc (cand rnd k) = true
      · rcases ih (k + 3) (acc ++ [cand rnd k]) with ⟨ext, he, hd⟩
        refine ⟨cand rnd k :: ext, ?_, ?_⟩
        · simp only [genPhase, h, if_true, hv, he, List.append_assoc,
            List.singleton_append]
        · intro t ht
          rcases List.mem_cons.mp ht with rfl | ht2
          · exact ⟨k, rfl⟩
          · exact hd t ht2
      · rcases ih (k + 3) acc with ⟨ext, he, hd⟩
        exact ⟨ext, by simp [genPhase, h, hv, he], hd⟩
    · exact ⟨[], by simp [genPhase, h], by simp⟩

theorem genPhase_counter (cand : (Nat → Nat) → Nat → Tunnel) (rnd : Nat → Nat)
    (target fuel k : Nat) (acc : List Tunnel) :
    (genPhase cand rnd target fuel k acc).2 ≤ k + 3 * fuel := by
  induction fuel generalizing k acc with
  | zero => simp [genPhase]
  | succ n ih =>
    by_cases h : acc.length < target
    · by_cases hv : isValidTunnel acc (cand rnd k) = true
      · simp only [genPhase, h, if_true, hv]
        have := ih (k + 3) (acc ++ [cand rnd k])
        omega
      · simp only [genPhase, h, if_true, hv, Bool.false_eq_true, if_false]
        have := ih (k + 3) acc
        omega
    · simp only [genPhase, h, if_false]
      omega

theorem createTunnels_validChain (rnd : Nat → Nat) : validChain (createTunnels rnd) := by
  have h1 : validChain (createTunnelsPhase1 rnd).1 :=
    genPhase_validChain _ _ _ _ _ _ validChain_nil
  exact genPhase_validChain _ _ _ _ _ _ h1

theorem createTunnels_dir (rnd : Nat → Nat) (t : Tunnel) (ht : t ∈ createTunnels rnd) :
    t.direction = .HORIZONTAL ∨ t.direction = .VERTICAL := by
  rcases genPhase_mem _ _ _ _ _ _ _ ht with hmem | ⟨j, rfl⟩
  · rcases genPhase_mem _ _ _ _ _ _ _ hmem with hnil | ⟨j, rfl⟩
    · simp at hnil
    · exact Or.inl rfl
  · exact Or.inr rfl

theorem chain_not_intersects (l : List Tunnel) (hc : validChain l)
    (i j : Nat) (ti tj : Tunnel) (hi : l.get? i = some ti) (hj : l.get? j = some tj)
    (hij : i < j) : tj.Intersects ti = false := by
  have hv := hc j tj hj
  unfold isValidTunnel at hv
  rw [Bool.and_eq_true] at hv
  have hall := hv.2
  rw [List.all_eq_true] at hall
  have hmem : ti ∈ l.take j := by
    have hg : (l.take j).get? i = some ti := by
      rw [List.get?_take hij]
      exact hi
    exact List.get?_mem hg
  have hres := hall ti hmem
  simpa using hres

theorem intersects_comm (t1 t2 : Tunnel)
    (h1 : t1.direction ≠ .NONE) (h2 : t2.direction ≠ .NONE) :
    t1.Intersects t2 = t2.Intersects t1 := by
  cases hd1 : t1.direction with
  | NONE => exact absurd hd1 h1
  | HORIZONTAL =>
    cases hd2 : t2.direction with
    | NONE => exact absurd hd2 h2
    | HORIZONTAL =>
      by_cases hy : t1.startY = t2.startY
      · simp [Tunnel.Intersects, hd1, hd2, hy, Bool.and_comm]
      · simp [Tunnel.Intersects, hd1, hd2, hy, Ne.symm hy]
    | VERTICAL =>
      simp [Tunnel.Intersects, hd1, hd2]
  | VERTICAL =>
    cases hd2 : t2.direction with
    | NONE => exact absurd hd2 h2
    | HORIZONTAL =>
      simp [Tunnel.Intersects, hd1, hd2]
    | VERTICAL =>
      by_cases hx : t1.startX = t2.startX
      · simp [Tunnel.Intersects, hd1, hd2, hx, Bool.and_comm]
      · simp [Tunnel.Intersects, hd1, hd2, hx, Ne.symm hx]

theorem contains_both_intersects (t1 t2 : Tunnel) (x y : Int)
    (h1 : t1.Contains x y = true) (h2 : t2.Contains x y = true) :
    t1.Intersects t2 = true := by
  cases hd1 : t1.direction with
  | NONE => simp [Tunnel.Contains, hd1] at h1
  | HORIZONTAL =>
    simp [Tunnel.Contains, hd1] at h1
    cases hd2 : t2.direction with
    | NONE => simp [Tunnel.Contains, hd2] at h2
    | HORIZONTAL =>
      simp [Tunnel.Contains, hd2] at h2
      have hy : t1.startY = t2.startY := by omega
      simp [Tunnel.Intersects, hd1, hd2, hy]
      omega
    | VERTICAL =>
      simp [Tunnel.Contains, hd2] at h2
      simp [Tunnel.Intersects, hd1, hd2]
      omega
  | VERTICAL =>
    simp [Tunnel.Contains, hd1] at h1
    cases hd2 : t2.direction with
    | NONE => simp [Tunnel.Contains, hd2] at h2
    | HORIZONTAL =>
      simp [Tunnel.Contains, hd2] at h2
      simp [Tunnel.Intersects, hd1, hd2]
      omega
    | VERTICAL =>
      simp [Tunnel.Contains, hd2] at h2
      have hx : t1.startX = t2.startX := by omega
      simp [Tunnel.Intersects, hd1, hd2, hx]
      omega

theorem createTunnels_not_intersects_aux (rnd : Nat → Nat) (i j : Nat)
    (ti tj : Tunnel) (hi : (createTunnels rnd).get? i = some ti)
    (hj : (createTunnels rnd).get? j = some tj) (hij : i ≠ j) :
    ti.Intersects tj = false := by
  have hc := createTunnels_validChain rnd
  have d1 := createTunnels_dir rnd ti (List.get?_mem hi)
  have d2 := createTunnels_dir rnd tj (List.get?_mem hj)
  rcases Nat.lt_or_ge i j with h | h
  · have hne := chain_not_intersects _ hc i j ti tj hi hj h
    rw [intersects_comm ti tj
      (by rcases d1 with h1 | h1 <;> simp [h1])
      (by rcases d2 with h2 | h2 <;> simp [h2])]
    exact hne
  · have hlt : j < i := by omega
    exact chain_not_intersects _ hc j i tj ti hj hi hlt

/-- C1: any two tunnels at distinct positions of a generated layout do not
intersect: pairwise tile-span disjointness is established at generation
time by IsValidTunnel and holds for the whole level. -/
theorem createTunnels_pairwise_not_intersects (rnd : Nat → Nat) (i j : Nat)
    (ti tj : Tunnel) (hi : (createTunnels rnd).get? i = some ti)
    (hj : (createTunnels rnd).get? j = some tj) (hij : i ≠ j) :
    ti.Intersects tj = false :=
  createTunnels_not_intersects_aux rnd i j ti tj hi hj hij

/-- Witness for C1: the first two tunnels generated from the identity
random stream do not intersect. -/
theorem createTunnels_pairwise_not_intersects_witness :
    Tunnel.Intersects ⟨2, 3, 6, .HORIZONTAL, true, false⟩
      ⟨5, 6, 4, .HORIZONTAL, true, false⟩ = false :=
  createTunnels_pairwise_not_intersects (fun k => k) 0 1 _ _
    (by decide) (by decide) (by decide)

/-- C2: every tile of every accepted tunnel lies strictly inside the
1-tile border margin of the grid. -/
theorem createTunnels_within_border (rnd : Nat → Nat) (t : Tunnel)
    (ht : t ∈ createTunnels rnd) (x y : Int) (hc : t.Contains x y = true) :
    1 ≤ x ∧ x < GRID_WIDTH - 1 ∧ 1 ≤ y ∧ y < GRID_HEIGHT - 1 := by
  obtain ⟨i, hi⟩ := List.mem_iff_get?.mp ht
  have hv := createTunnels_validChain rnd i t hi
  unfold isValidTunnel at hv
  rw [Bool.and_eq_true] at hv
  have hb := hv.1
  cases hd : t.direction with
  | HORIZONTAL =>
    simp [hd, GRID_WIDTH, GRID_HEIGHT] at hb
    simp [Tunnel.Contains, hd] at hc
    simp [GRID_WIDTH, GRID_HEIGHT]
    omega
  | VERTICAL =>
    simp [hd, GRID_WIDTH, GRID_HEIGHT] at hb
    simp [Tunnel.Contains, hd] at hc
    simp [GRID_WIDTH, GRID_HEIGHT]
    omega
  | NONE =>
    simp [Tunnel.Contains, hd] at hc

/-- Witness for C2: tile (2,3) of the first generated tunnel is inside
the border margin. -/
theorem createTunnels_within_border_witness :
    1 ≤ (2 : Int) ∧ (2 : Int) < GRID_WIDTH - 1 ∧
      1 ≤ (3 : Int) ∧ (3 : Int) < GRID_HEIGHT - 1 :=
  createTunnels_within_border (fun k => k) ⟨2, 3, 6, .HORIZONTAL, true, false⟩
    (by decide) 2 3 (by decide)

/-- C9: generation terminates with at most 4 tunnels from the horizontal
phase and at most 8 in total, the horizontal phase comes first, every
accepted tunnel passed IsValidTunnel against exactly the tunnels accepted
before it, and each phase consumes at most 50 attempts of 3 random draws
each.  Fewer tunnels than the targets is an accepted outcome: no error is
possible. -/
theorem createTunnels_generation_bounds (rnd : Nat → Nat) :
    (createTunnelsPhase1 rnd).1.length ≤ 4 ∧
    (createTunnels rnd).length ≤ 8 ∧
    (∀ t ∈ (createTunnelsPhase1 rnd).1, t.direction = .HORIZONTAL) ∧
    (∃ ext, createTunnels rnd = (createTunnelsPhase1 rnd).1 ++ ext ∧
        ∀ t ∈ ext, t.direction = .VERTICAL) ∧
    validChain (createTunnels rnd) ∧
    (createTunnelsPhase1 rnd).2 ≤ 3 * 50 ∧
    (createTunnelsPhase2 rnd).2 ≤ (createTunnelsPhase1 rnd).2 + 3 * 50 := by
  refine ⟨?_, ?_, ?_, ?_, ?_, ?_, ?_⟩
  · exact genPhase_length_le _ _ _ _ _ _ (by simp)
  · refine genPhase_length_le _ _ _ _ _ _ ?_
    have h4 : (createTunnelsPhase1 rnd).1.length ≤ 4 :=
      genPhase_length_le _ _ _ _ _ _ (by simp)
    omega
  · intro t ht
    rcases genPhase_mem _ _ _ _ _ _ _ ht with h | ⟨j, rfl⟩
    · simp at h
    · rfl
  · rcases genPhase_prefix vCandidate rnd 8 50 (createTunnelsPhase1 rnd).2
      (createTunnelsPhase1 rnd).1 with ⟨ext, he, hd⟩
    refine ⟨ext, he, fun t ht => ?_⟩
    rcases hd t ht with ⟨j, rfl⟩
    rfl
  · exact createTunnels_validChain rnd
  · simpa using genPhase_counter hCandidate rnd 4 50 0 []
  · exact genPhase_counter vCandidate rnd 8 50 _ _

/-- Witness for C9: the layout from the identity random stream has at most
8 tunnels. -/
theorem createTunnels_generation_bounds_witness :
    (createTunnels (fun k => k)).length ≤ 8 :=
  (createTunnels_generation_bounds (fun k => k)).2.1

theorem find?_congr_of_unique (p : Tunnel → Bool) (l l2 : List Tunnel)
    (hperm : l.Perm l2)
    (huniq : ∀ a ∈ l, ∀ b ∈ l, p a = true → p b = true → a = b) :
    l2.find? p = l.find? p := by
  cases hf : l.find? p with
  | none =>
    have hnone := List.find?_eq_none.mp hf
    exact List.find?_eq_none.mpr fun x hx => hnone x (hperm.mem_iff.mpr hx)
  | some a =>
    have hpa : p a = true := List.find?_some hf
    have hma : a ∈ l := List.mem_of_find?_eq_some hf
    cases hf2 : l2.find? p with
    | none =>
      exact absurd (List.find?_eq_none.mp hf2 a (hperm.mem_iff.mp hma)) (by simp [hpa])
    | some b =>
      have hpb : p b = true := List.find?_some hf2
      have hmb : b ∈ l := hperm.mem_iff.mpr (List.mem_of_find?_eq_some hf2)
      rw [huniq b hmb a hma hpb hpa]

/-- C10: in a generated layout each grid tile is contained by the tunnel
at no more than one position of the list, so GetTunnelAt is independent of
the iteration order of the tunnel list. -/
theorem createTunnels_unique_container (rnd : Nat → Nat) (x y : Int) :
    (∀ i j ti tj, (createTunnels rnd).get? i = some ti →
        (createTunnels rnd).get? j = some tj →
        ti.Contains x y = true → tj.Contains x y = true → i = j) ∧
    (∀ l2, (createTunnels rnd).Perm l2 →
        getTunnelAt l2 x y = getTunnelAt (createTunnels rnd) x y) := by
  have huniq : ∀ i j ti tj, (createTunnels rnd).get? i = some ti →
      (createTunnels rnd).get? j = some tj →
      ti.Contains x y = true → tj.Contains x y = true → i = j := by
    intro i j ti tj hi hj hci hcj
    by_contra hne
    have hfalse := createTunnels_not_intersects_aux rnd i j ti tj hi hj hne
    have htrue := contains_both_intersects ti tj x y hci hcj
    rw [htrue] at hfalse
    exact absurd hfalse (by simp)
  refine ⟨huniq, fun l2 hp => ?_⟩
  refine find?_congr_of_unique _ _ _ hp ?_
  intro a ha b hb hpa hpb
  obtain ⟨i, hi⟩ := List.mem_iff_get?.mp ha
  obtain ⟨j, hj⟩ := List.mem_iff_get?.mp hb
  have hij := huniq i j a b hi hj hpa hpb
  rw [hij] at hi
  rw [hi] at hj
  exact Option.some_inj.mp hj

/-- Witness for C10: reversing the generated tunnel list does not change
the result of GetTunnelAt. -/
theorem createTunnels_unique_container_witness :
    getTunnelAt ((createTunnels (fun k => k)).reverse) 3 3 =
      getTunnelAt (createTunnels (fun k => k)) 3 3 :=
  (createTunnels_unique_container (fun k => k) 3 3).2 _ (List.reverse_perm _).symm

/-- Monster base speed (the float 0.5f, exact). -/
def MONSTER_SPEED : ℚ := 1 / 2

/-- Monster chase speed (the float literal 1.2f, modelled as the exact
rational it denotes in source). -/
def MONSTER_CHASE_SPEED : ℚ := 12 / 10

/-- Dragon base speed (0.5f). -/
def DRAGON_SPEED : ℚ := 1 / 2

/-- Dragon chase speed (1.5f, exact). -/
def DRAGON_CHASE_SPEED : ℚ := 15 / 10

/-- The common data shape of the Monster and Dragon classes: position
(float, modelled as exact rationals), alive, inTunnel, chasing flags, the
home tunnel (a pointer in C, here an index into the world's tunnel list),
and the patrol direction (1 or -1).  Field defaults follow the C member
initializers. -/
structure Enemy where
  x : ℚ
  y : ℚ
  alive : Bool := true
  inTunnel : Bool := true
  chasing : Bool := false
  homeTunnel : Nat
  direction : Int := 1
deriving DecidableEq, Repr

/-- The C cast static_cast from a float to int truncates toward zero. -/
def truncQ (q : ℚ) : Int := if 0 ≤ q then ⌊q⌋ else ⌈q⌉

/-- Pixel coordinate to grid tile: static_cast to int, then integer
division by TILE_SIZE (C division truncates toward zero, Int.tdiv). -/
def gridOf (q : ℚ) : Int := (truncQ q).tdiv TILE_SIZE

/-- Monster.MoveInTunnel: advance along the home tunnel's axis by speed
times direction, then reverse direction when the resulting grid tile is at
or beyond either end tile.  The C else branch covers VERTICAL and NONE. -/
def monsterMoveInTunnel (home : Tunnel) (m : Enemy) : Enemy :=
  if !m.alive || !m.inTunnel then m
  else if home.direction = .HORIZONTAL then
    let x := m.x + MONSTER_SPEED * (m.direction : ℚ)
    let gridX := gridOf x
    if gridX ≤ home.startX ∨ gridX ≥ home.startX + home.length - 1 then
      { m with x := x, direction := m.direction * (-1) }
    else
      { m with x := x }
  else
    let y := m.y + MONSTER_SPEED * (m.direction : ℚ)
    let gridY := gridOf y
    if gridY ≤ home.startY ∨ gridY ≥ home.startY + home.length - 1 then
      { m with y := y, direction := m.direction * (-1) }
    else
      { m with y := y }

/-- Dragon.MoveInTunnel, translated from the Dragon class body. -/
def dragonMoveInTunnel (home : Tunnel) (m : Enemy) : Enemy :=
  if !m.alive || !m.inTunnel then m
  else if home.direction = .HORIZONTAL then
    let x := m.x + DRAGON_SPEED * (m.direction : ℚ)
    let gridX := gridOf x
    if gridX ≤ home.startX ∨ gridX ≥ home.startX + home.length - 1 then
      { m with x := x, direction := m.direction * (-1) }
    else
      { m with x := x }
  else
    let y := m.y + DRAGON_SPEED * (m.direction : ℚ)
    let gridY := gridOf y
    if gridY ≤ home.startY ∨ gridY ≥ home.startY + home.length - 1 then
      { m with y := y, direction := m.direction * (-1) }
    else
      { m with y := y }

/-- Monster.MoveTowards: per-axis approach to the target at chase speed
when chasing, else base speed. -/
def monsterMoveTowards (target : ℚ × ℚ) (m : Enemy) : Enemy :=
  if !m.alive || m.inTunnel then m
  else
    let s := if m.chasing then MONSTER_CHASE_SPEED else MONSTER_SPEED
    let x := if target.1 > m.x then m.x + s else if target.1 < m.x then m.x - s else m.x
    let y := if target.2 > m.y then m.y + s else if target.2 < m.y then m.y - s else m.y
    { m with x := x, y := y }

/-- Dragon.MoveTowards, translated from the Dragon class body. -/
def dragonMoveTowards (target : ℚ × ℚ) (m : Enemy) : Enemy :=
  if !m.alive || m.inTunnel then m
  else
    let s := if m.chasing then DRAGON_CHASE_SPEED else DRAGON_SPEED
    let x := if target.1 > m.x then m.x + s else if target.1 < m.x then m.x - s else m.x
    let y := if target.2 > m.y then m.y + s else if target.2 < m.y then m.y - s else m.y
    { m with x := x, y := y }

/-- C3 counterexample: a chasing enemy outside its tunnel at the origin,
with the player at (10,10), moves by 1.2 per axis as a Monster but by 1.5
per axis as a Dragon, so the chase-step functions are not identical. -/
theorem monster_dragon_chase_differ :
    monsterMoveTowards (10, 10) ⟨0, 0, true, false, true, 0, 1⟩ ≠
      dragonMoveTowards (10, 10) ⟨0, 0, true, false, true, 0, 1⟩ := by
  intro h
  have hx := congrArg Enemy.x h
  norm_num [monsterMoveTowards, dragonMoveTowards, MONSTER_CHASE_SPEED,
    DRAGON_CHASE_SPEED, MONSTER_SPEED, DRAGON_SPEED] at hx

/-- C3 amended: Monster and Dragon share one data shape and their
patrol-step functions agree on every state and tunnel; their chase-step
functions agree only when not chasing, because the chase speeds differ
(1.2 versus 1.5), in addition to the render symbol and score value. -/
theorem monster_dragon_same_shape_patrol :
    (∀ (home : Tunnel) (e : Enemy),
        monsterMoveInTunnel home e = dragonMoveInTunnel home e) ∧
    (∀ (target : ℚ × ℚ) (e : Enemy), e.chasing = false →
        monsterMoveTowards target e = dragonMoveTowards target e) := by
  constructor
  · intro home e
    unfold monsterMoveInTunnel dragonMoveInTunnel MONSTER_SPEED DRAGON_SPEED
    rfl
  · intro target e hc
    unfold monsterMoveTowards dragonMoveTowards
    simp only [hc, MONSTER_SPEED, DRAGON_SPEED, if_false, Bool.false_eq_true]

/-- Witness for the amended C3: a non-chasing enemy outside its tunnel
takes the same step as Monster and as Dragon. -/
theorem monster_dragon_same_shape_patrol_witness :
    monsterMoveTowards (10, 10) ⟨3, 4, true, false, false, 0, 1⟩ =
      dragonMoveTowards (10, 10) ⟨3, 4, true, false, false, 0, 1⟩ :=
  monster_dragon_same_shape_patrol.2 (10, 10) ⟨3, 4, true, false, false, 0, 1⟩ rfl

/-- An axis-aligned rectangle with float fields, modelled exactly. -/
structure Rect where
  x : ℚ
  y : ℚ
  w : ℚ
  h : ℚ
deriving DecidableEq, Repr

/-- The raylib CheckCollisionRecs overlap test used by the game: strict
inequalities on both axes. -/
def checkCollisionRecs (a b : Rect) : Bool :=
  decide (a.x < b.x + b.w ∧ a.x + a.w > b.x ∧ a.y < b.y + b.h ∧ a.y + a.h > b.y)

/-- Monster.Bounds and Dragon.Bounds: a TILE_SIZE square at the enemy
position. -/
def Enemy.bounds (m : Enemy) : Rect :=
  ⟨m.x, m.y, (TILE_SIZE : ℚ), (TILE_SIZE : ℚ)⟩

/-- MakeNormalizedRect from main.cpp: flip a negative width or height so
the rectangle has non-negative extent. -/
def makeNormalizedRect (x y w h : ℚ) : Rect :=
  let r : Rect := ⟨x, y, w, h⟩
  let r2 := if r.w < 0 then { r with x := r.x + r.w, w := r.w * (-1) } else r
  if r2.h < 0 then { r2 with y := r2.y + r2.h, h := r2.h * (-1) } else r2

/-- The harpoon hit rectangle built by the main loop from the player
position and aim direction: a thin strip of reach 50 from the player
center (size/2 = 16) along the aim axis. -/
def harpoonRect (px py dx dy : ℚ) : Rect :=
  if dx ≠ 0 then
    makeNormalizedRect (px + (TILE_SIZE : ℚ) / 2) (py + (TILE_SIZE : ℚ) / 2 - 2)
      (dx * 50) 4
  else
    makeNormalizedRect (px + (TILE_SIZE : ℚ) / 2 - 2) (py + (TILE_SIZE : ℚ) / 2)
      4 (dy * 50)

/-- The monster loop of the harpoon collision block: each live monster
overlapping the rectangle is killed and adds 100 points, the score
threading left to right through the list. -/
def harpoonPassMonsters (r : Rect) : List Enemy → Int → List Enemy × Int
  | [], score => ([], score)
  | m :: ms, score =>
    if m.alive && checkCollisionRecs r m.bounds then
      let rest := harpoonPassMonsters r ms (score + 100)
      ({ m with alive := false } :: rest.1, rest.2)
    else
      let rest := harpoonPassMonsters r ms score
      (m :: rest.1, rest.2)

/-- The dragon loop of the harpoon collision block: 200 points per kill. -/
def harpoonPassDragons (r : Rect) : List Enemy → Int → List Enemy × Int
  | [], score => ([], score)
  | d :: ds, score =>
    if d.alive && checkCollisionRecs r d.bounds then
      let rest := harpoonPassDragons r ds (score + 200)
      ({ d with alive := false } :: rest.1, rest.2)
    else
      let rest := harpoonPassDragons r ds score
      (d :: rest.1, rest.2)

/-- The whole harpoon collision block of one frame: monsters first, then
dragons, as the main loop runs them. -/
def harpoonStrike (r : Rect) (ms ds : List Enemy) (score : Int) :
    List Enemy × List Enemy × Int :=
  let pm := harpoonPassMonsters r ms score
  let pd := harpoonPassDragons r ds pm.2
  (pm.1, pd.1, pd.2)

/-- Reference per-enemy outcome: killed exactly when alive and hit. -/
def killIfHit (r : Rect) (m : Enemy) : Enemy :=
  if m.alive && checkCollisionRecs r m.bounds then { m with alive := false } else m

/-- Number of live enemies of a list overlapping the rectangle. -/
def hitCount (r : Rect) (l : List Enemy) : Nat :=
  l.countP fun m => m.alive && checkCollisionRecs r m.bounds

theorem harpoonPassMonsters_eq (r : Rect) (l : List Enemy) (score : Int) :
    harpoonPassMonsters r l score =
      (l.map (killIfHit r), score + 100 * hitCount r l) := by
  induction l generalizing score with
  | nil => simp [harpoonPassMonsters, hitCount]
  | cons m ms ih =>
    by_cases hm : (m.alive && checkCollisionRecs r m.bounds) = true
    · simp [harpoonPassMonsters, hm, ih, killIfHit, hitCount, List.countP_cons]
      ring
    · simp [harpoonPassMonsters, hm, ih, killIfHit, hitCount, List.countP_cons]

theorem harpoonPassDragons_eq (r : Rect) (l : List Enemy) (score : Int) :
    harpoonPassDragons r l score =
      (l.map (killIfHit r), score + 200 * hitCount r l) := by
  induction l generalizing score with
  | nil => simp [harpoonPassDragons, hitCount]
  | cons d ds ih =>
    by_cases hd : (d.alive && checkCollisionRecs r d.bounds) = true
    · simp [harpoonPassDragons, hd, ih, killIfHit, hitCount, List.countP_cons]
      ring
    · simp [harpoonPassDragons, hd, ih, killIfHit, hitCount, List.countP_cons]

/-- C4: the harpoon block kills exactly the live enemies overlapping the
harpoon rectangle (an already-dead enemy is untouched and unscored), and
the score grows by 100 per live monster hit plus 200 per live dragon hit;
in particular one monster and one dragon hit together add exactly 300. -/
theorem harpoonStrike_kills_and_scores (r : Rect) (ms ds : List Enemy) (score : Int) :
    harpoonStrike r ms ds score =
      (ms.map (killIfHit r), ds.map (killIfHit r),
        score + 100 * hitCount r ms + 200 * hitCount r ds) := by
  simp [harpoonStrike, harpoonPassMonsters_eq, harpoonPassDragons_eq]

/-- The overall game state enum. -/
inductive GameState where
  | SPLASH
  | PLAYING
  | GAMEOVER
  | WIN
deriving DecidableEq, Repr

/-- The world and player fields read and written by the player-collision
and death-resolution blocks of one frame. -/
structure FrameState where
  alive : Bool
  lives : Int
  score : Int
  highScore : Int
  state : GameState
  respawnTimer : Int
  deathFlashTimer : Int
deriving DecidableEq, Repr

/-- World.SaveHighScore's effect on the in-memory high score: update only
when the score strictly exceeds it (the file write is best-effort IO
outside the model). -/
def saveHighScore (score highScore : Int) : Int :=
  if score > highScore then score else highScore

/-- The player-versus-enemy collision loops: any live enemy overlapping
the player's bounds clears the player's alive flag. -/
def playerHitByEnemies (pb : Rect) (ms ds : List Enemy) (alive : Bool) : Bool :=
  if (ms.any fun m => m.alive && checkCollisionRecs pb m.bounds) ||
      (ds.any fun d => d.alive && checkCollisionRecs pb d.bounds) then false
  else alive

/-- The death-resolution block of the frame: when the player died this
frame, decrement lives and start the death flash, then either start the
respawn countdown (lives remain) or save the high score and enter
GAMEOVER. -/
def resolveDeath (w : FrameState) : FrameState :=
  if !w.alive then
    let w1 := { w with lives := w.lives - 1, deathFlashTimer := DEATH_FLASH_TIME }
    if w1.lives > 0 then { w1 with respawnTimer := RESPAWN_DELAY }
    else { w1 with highScore := saveHighScore w1.score w1.highScore,
                   state := .GAMEOVER }
  else w

/-- Player collision followed by death resolution, in frame order. -/
def collideAndResolve (pb : Rect) (ms ds : List Enemy) (w : FrameState) : FrameState :=
  resolveDeath { w with alive := playerHitByEnemies pb ms ds w.alive }

/-- C5: colliding with a live enemy on the last life zeroes lives, enters
GAMEOVER and raises the stored high score exactly when the score strictly
exceeds it; with more than one life it instead starts the fixed respawn
countdown. -/
theorem death_resolution_last_life (pb : Rect) (ms ds : List Enemy) (w : FrameState)
    (hhit : ((ms.any fun m => m.alive && checkCollisionRecs pb m.bounds) ||
        (ds.any fun d => d.alive && checkCollisionRecs pb d.bounds)) = true) :
    (w.lives = 1 →
      (collideAndResolve pb ms ds w).lives = 0 ∧
      (collideAndResolve pb ms ds w).state = .GAMEOVER ∧
      (collideAndResolve pb ms ds w).highScore =
        (if w.score > w.highScore then w.score else w.highScore)) ∧
    (w.lives > 1 →
      (collideAndResolve pb ms ds w).lives = w.lives - 1 ∧
      (collideAndResolve pb ms ds w).respawnTimer = RESPAWN_DELAY ∧
      (collideAndResolve pb ms ds w).state = w.state) := by
  have halive : playerHitByEnemies pb ms ds w.alive = false := by
    simp [playerHitByEnemies, hhit]
  constructor
  · intro h1
    simp [collideAndResolve, halive, resolveDeath, h1, saveHighScore]
  · intro h2
    have hpos : w.lives - 1 > 0 := by omega
    simp [collideAndResolve, halive, resolveDeath, hpos]

/-- Witness for C5: a live monster sitting on the player with one life
left ends the game with lives 0 and high score raised to the score. -/
theorem death_resolution_last_life_witness :
    (collideAndResolve ⟨0, 0, 32, 32⟩ [⟨0, 0, true, false, true, 0, 1⟩] []
        ⟨true, 1, 500, 100, .PLAYING, 0, 0⟩).lives = 0 ∧
    (collideAndResolve ⟨0, 0, 32, 32⟩ [⟨0, 0, true, false, true, 0, 1⟩] []
        ⟨true, 1, 500, 100, .PLAYING, 0, 0⟩).state = .GAMEOVER ∧
    (collideAndResolve ⟨0, 0, 32, 32⟩ [⟨0, 0, true, false, true, 0, 1⟩] []
        ⟨true, 1, 500, 100, .PLAYING, 0, 0⟩).highScore =
      (if (500 : Int) > 100 then 500 else 100) :=
  (death_resolution_last_life ⟨0, 0, 32, 32⟩ [⟨0, 0, true, false, true, 0, 1⟩] []
      ⟨true, 1, 500, 100, .PLAYING, 0, 0⟩
      (by norm_num [checkCollisionRecs, Enemy.bounds, TILE_SIZE])).1 rfl

/-- The broadcast performed when the tunnel at index i activates: every
enemy whose home tunnel is that index leaves the tunnel and starts
chasing (the C code compares homeTunnel pointers; here the index into the
owning list plays the role of the pointer). -/
def alertHome (i : Nat) (l : List Enemy) : List Enemy :=
  l.map fun m =>
    if m.homeTunnel = i then { m with inTunnel := false, chasing := true } else m

/-- World.CheckTunnelActivation iterating the tunnel list from index i:
each tunnel containing the player's tile and not yet activated becomes
activated, and its resident monsters and dragons are alerted. -/
def ctaAux (px py : Int) : Nat → List Tunnel → List Enemy → List Enemy →
    List Tunnel × List Enemy × List Enemy
  | _, [], ms, ds => ([], ms, ds)
  | i, t :: ts, ms, ds =>
    if t.Contains px py && !t.activated then
      let rest := ctaAux px py (i + 1) ts (alertHome i ms) (alertHome i ds)
      ({ t with activated := true } :: rest.1, rest.2)
    else
      let rest := ctaAux px py (i + 1) ts ms ds
      (t :: rest.1, rest.2)

/-- World.CheckTunnelActivation on the player's grid tile. -/
def checkTunnelActivation (px py : Int) (ts : List Tunnel) (ms ds : List Enemy) :
    List Tunnel × List Enemy × List Enemy :=
  ctaAux px py 0 ts ms ds

theorem alertHome_get?_other (i : Nat) (l : List Enemy) (j : Nat) (m : Enemy)
    (hm : l.get? j = some m) (hne : m.homeTunnel ≠ i) :
    (alertHome i l).get? j = some m := by
  simp only [alertHome, List.get?_map, hm, Option.map_some']
  simp [hne]

theorem alertHome_get?_home (i : Nat) (l : List Enemy) (j : Nat) (m : Enemy)
    (hm : l.get? j = some m) (hh : m.homeTunnel = i) :
    (alertHome i l).get? j = some { m with inTunnel := false, chasing := true } := by
  simp only [alertHome, List.get?_map, hm, Option.map_some']
  simp [hh]

theorem ctaAux_monsters_lowHome (px py : Int) (ts : List Tunnel) (b : Nat)
    (ms ds : List Enemy) (j : Nat) (m : Enemy) (hm : ms.get? j = some m)
    (hlow : m.homeTunnel < b) :
    (ctaAux px py b ts ms ds).2.1.get? j = some m := by
  induction ts generalizing b ms ds with
  | nil => simpa [ctaAux] using hm
  | cons t ts ih =>
    cases hc : (t.Contains px py && !t.activated) with
    | true =>
      have hm2 : (alertHome b ms).get? j = some m :=
        alertHome_get?_other b ms j m hm (by omega)
      simp only [ctaAux, hc, if_true]
      exact ih (b + 1) (alertHome b ms) (alertHome b ds) hm2 (by omega)
    | false =>
      simp only [ctaAux, hc, Bool.false_eq_true, if_false]
      exact ih (b + 1) ms ds hm (by omega)

theorem ctaAux_dragons_lowHome (px py : Int) (ts : List Tunnel) (b : Nat)
    (ms ds : List Enemy) (j : Nat) (d : Enemy) (hd : ds.get? j = some d)
    (hlow : d.homeTunnel < b) :
    (ctaAux px py b ts ms ds).2.2.get? j = some d := by
  induction ts generalizing b ms ds with
  | nil => simpa [ctaAux] using hd
  | cons t ts ih =>
    cases hc : (t.Contains px py && !t.activated) with
    | true =>
      have hd2 : (alertHome b ds).get? j = some d :=
        alertHome_get?_other b ds j d hd (by omega)
      simp only [ctaAux, hc, if_true]
      exact ih (b + 1) (alertHome b ms) (alertHome b ds) hd2 (by omega)
    | false =>
      simp only [ctaAux, hc, Bool.false_eq_true, if_false]
      exact ih (b + 1) ms ds hd (by omega)

theorem ctaAux_activates (px py : Int) (ts : List Tunnel) (b n : Nat) (t : Tunnel)
    (ms ds : List Enemy)
    (ht : ts.get? n = some t) (hcont : t.Contains px py = true)
    (hdorm : t.activated = false) :
    (ctaAux px py b ts ms ds).1.get? n = some { t with activated := true } ∧
    (∀ j m, ms.get? j = some m → m.homeTunnel = b + n →
      (ctaAux px py b ts ms ds).2.1.get? j =
        some { m with inTunnel := false, chasing := true }) ∧
    (∀ j d, ds.get? j = some d → d.homeTunnel = b + n →
      (ctaAux px py b ts ms ds).2.2.get? j =
        some { d with inTunnel := false, chasing := true }) := by
  induction ts generalizing b n ms ds with
  | nil => simp [List.get?] at ht
  | cons u ts ih =>
    cases n with
    | zero =>
      have hu : u = t := by simpa [List.get?] using ht
      subst hu
      have hcu : (u.Contains px py && !u.activated) = true := by
        simp [hcont, hdorm]
      simp only [ctaAux, hcu, if_true]
      refine ⟨by simp [List.get?], ?_, ?_⟩
      · intro j m hm hhome
        have hh : m.homeTunnel = b := by omega
        have hm2 : (alertHome b ms).get? j =
            some { m with inTunnel := false, chasing := true } :=
          alertHome_get?_home b ms j m hm hh
        exact ctaAux_monsters_lowHome px py ts (b + 1) _ _ j _ hm2 (by simp [hh])
      · intro j d hd hhome
        have hh : d.homeTunnel = b := by omega
        have hd2 : (alertHome b ds).get? j =
            some { d with inTunnel := false, chasing := true } :=
          alertHome_get?_home b ds j d hd hh
        exact ctaAux_dragons_lowHome px py ts (b + 1) _ _ j _ hd2 (by simp [hh])
    | succ n =>
      have ht2 : ts.get? n = some t := by simpa [List.get?] using ht
      cases hcu : (u.Contains px py && !u.activated) with
      | true =>
        obtain ⟨h1, h2, h3⟩ :=
          ih (b + 1) n (alertHome b ms) (alertHome b ds) ht2
        simp only [ctaAux, hcu, if_true]
        refine ⟨by simpa [List.get?] using h1, ?_, ?_⟩
        · intro j m hm hhome
          have hm2 : (alertHome b ms).get? j = some m :=
            alertHome_get?_other b ms j m hm (by omega)
          exact h2 j m hm2 (by omega)
        · intro j d hd hhome
          have hd2 : (alertHome b ds).get? j = some d :=
            alertHome_get?_other b ds j d hd (by omega)
          exact h3 j d hd2 (by omega)
      | false =>
        obtain ⟨h1, h2, h3⟩ := ih (b + 1) n ms ds ht2
        simp only [ctaAux, hcu, Bool.false_eq_true, if_false]
        refine ⟨by simpa [List.get?] using h1, ?_, ?_⟩
        · intro j m hm hhome
          exact h2 j m hm (by omega)
        · intro j d hd hhome
          exact h3 j d hd (by omega)

/-- C6: in the per-frame activation check, a not-yet-activated tunnel
containing the player's tile becomes activated, and every monster and
every dragon homed at that tunnel leaves it and starts chasing in the
same step: the release is a broadcast over all resident enemies. -/
theorem tunnel_activation_broadcast (px py : Int) (ts : List Tunnel)
    (ms ds : List Enemy) (i : Nat) (t : Tunnel)
    (ht : ts.get? i = some t) (hcont : t.Contains px py = true)
    (hdorm : t.activated = false) :
    (checkTunnelActivation px py ts ms ds).1.get? i =
      some { t with activated := true } ∧
    (∀ j m, ms.get? j = some m → m.homeTunnel = i →
      (checkTunnelActivation px py ts ms ds).2.1.get? j =
        some { m with inTunnel := false, chasing := true }) ∧
    (∀ j d, ds.get? j = some d → d.homeTunnel = i →
      (checkTunnelActivation px py ts ms ds).2.2.get? j =
        some { d with inTunnel := false, chasing := true }) := by
  have h := ctaAux_activates px py ts 0 i t ms ds ht hcont hdorm
  simpa [checkTunnelActivation] using h

/-- Witness for C6: a tunnel holding two monsters releases both of them
in the same activation step. -/
theorem tunnel_activation_broadcast_witness :
    (checkTunnelActivation 3 2 [⟨2, 2, 4, .HORIZONTAL, true, false⟩]
        [⟨80, 64, true, true, false, 0, 1⟩, ⟨96, 64, true, true, false, 0, 1⟩]
        []).2.1.get? 0 = some ⟨80, 64, true, false, true, 0, 1⟩ ∧
    (checkTunnelActivation 3 2 [⟨2, 2, 4, .HORIZONTAL, true, false⟩]
        [⟨80, 64, true, true, false, 0, 1⟩, ⟨96, 64, true, true, false, 0, 1⟩]
        []).2.1.get? 1 = some ⟨96, 64, true, false, true, 0, 1⟩ := by
  have h := tunnel_activation_broadcast 3 2 [⟨2, 2, 4, .HORIZONTAL, true, false⟩]
    [⟨80, 64, true, true, false, 0, 1⟩, ⟨96, 64, true, true, false, 0, 1⟩] []
    0 ⟨2, 2, 4, .HORIZONTAL, true, false⟩ rfl (by decide) rfl
  exact ⟨h.2.1 0 _ rfl rfl, h.2.1 1 _ rfl rfl⟩

/-- Membership of a coordinate in a half-open 1-D tile span. -/
def inSpan (s l z : Int) : Prop := s ≤ z ∧ z < s + l

/-- Reference intersection relation, written from the specification:
same-orientation tunnels intersect iff they share the perpendicular
coordinate and their half-open spans have a common point;
opposite-orientation tunnels intersect iff each tunnel's fixed coordinate
falls within the other's span. -/
def intersectsRef (t1 t2 : Tunnel) : Prop :=
  match t1.direction, t2.direction with
  | .HORIZONTAL, .HORIZONTAL =>
      t1.startY = t2.startY ∧
      ∃ z, inSpan t1.startX t1.length z ∧ inSpan t2.startX t2.length z
  | .VERTICAL, .VERTICAL =>
      t1.startX = t2.startX ∧
      ∃ z, inSpan t1.startY t1.length z ∧ inSpan t2.startY t2.length z
  | .HORIZONTAL, .VERTICAL =>
      inSpan t1.startX t1.length t2.startX ∧ inSpan t2.startY t2.length t1.startY
  | .VERTICAL, .HORIZONTAL =>
      inSpan t2.startX t2.length t1.startX ∧ inSpan t1.startY t1.length t2.startY
  | _, _ => False

/-- C8: for tunnels with a real orientation and positive length,
Tunnel.Intersects agrees with the reference relation, and it is
symmetric. -/
theorem intersects_correct (t1 t2 : Tunnel)
    (h1 : t1.direction ≠ .NONE) (h2 : t2.direction ≠ .NONE)
    (hl1 : 0 < t1.length) (hl2 : 0 < t2.length) :
    (t1.Intersects t2 = true ↔ intersectsRef t1 t2) ∧
    t1.Intersects t2 = t2.Intersects t1 := by
  refine ⟨?_, intersects_comm t1 t2 h1 h2⟩
  cases hd1 : t1.direction with
  | NONE => exact absurd hd1 h1
  | HORIZONTAL =>
    cases hd2 : t2.direction with
    | NONE => exact absurd hd2 h2
    | HORIZONTAL =>
      by_cases hy : t1.startY = t2.startY
      · simp only [intersectsRef, hd1, hd2, inSpan]
        simp [Tunnel.Intersects, hd1, hd2, hy]
        constructor
        · intro h
          exact ⟨max t1.startX t2.startX, by omega, by omega⟩
        · rintro ⟨z, hz1, hz2⟩
          omega
      · simp only [intersectsRef, hd1, hd2, inSpan]
        simp [Tunnel.Intersects, hd1, hd2, hy]
    | VERTICAL =>
      simp only [intersectsRef, hd1, hd2, inSpan]
      simp [Tunnel.Intersects, hd1, hd2]
  | VERTICAL =>
    cases hd2 : t2.direction with
    | NONE => exact absurd hd2 h2
    | HORIZONTAL =>
      simp only [intersectsRef, hd1, hd2, inSpan]
      simp [Tunnel.Intersects, hd1, hd2]
    | VERTICAL =>
      by_cases hx : t1.startX = t2.startX
      · simp only [intersectsRef, hd1, hd2, inSpan]
        simp [Tunnel.Intersects, hd1, hd2, hx]
        constructor
        · intro h
          exact ⟨max t1.startY t2.startY, by omega, by omega⟩
        · rintro ⟨z, hz1, hz2⟩
          omega
      · simp only [intersectsRef, hd1, hd2, inSpan]
        simp [Tunnel.Intersects, hd1, hd2, hx]

/-- Witness for C8: a horizontal and a vertical tunnel crossing at (4,3):
the code's test agrees with the reference relation and is symmetric
there. -/
theorem intersects_correct_witness :
    ((Tunnel.mk 2 3 6 .HORIZONTAL true false).Intersects
        ⟨4, 1, 5, .VERTICAL, true, false⟩ = true ↔
      intersectsRef ⟨2, 3, 6, .HORIZONTAL, true, false⟩
        ⟨4, 1, 5, .VERTICAL, true, false⟩) ∧
    (Tunnel.mk 2 3 6 .HORIZONTAL true false).Intersects
        ⟨4, 1, 5, .VERTICAL, true, false⟩ =
      (Tunnel.mk 4 1 5 .VERTICAL true false).Intersects
        ⟨2, 3, 6, .HORIZONTAL, true, false⟩ :=
  intersects_correct ⟨2, 3, 6, .HORIZONTAL, true, false⟩
    ⟨4, 1, 5, .VERTICAL, true, false⟩ (by decide) (by decide) (by decide) (by decide)

/-- The along-axis start tile of a tunnel (x for horizontal, y for
vertical). -/
def alongStart (t : Tunnel) : Int :=
  match t.direction with
  | .HORIZONTAL => t.startX
  | .VERTICAL => t.startY
  | .NONE => 0

/-- Closed pixel interval invariant for one patrol axis: while moving
forward (direction 1) the position lies between the first and the last
tile origins of the tunnel; while moving backward (direction -1) that
interval is shifted up by one half step. -/
def patrolInvAxis (lo hi sp : ℚ) (d : Int) (p : ℚ) : Prop :=
  (d = 1 ∧ lo ≤ p ∧ p ≤ hi) ∨ (d = -1 ∧ lo + sp ≤ p ∧ p ≤ hi + sp)

/-- The patrol invariant of an enemy relative to its home tunnel. -/
def patrolInv (t : Tunnel) (m : Enemy) : Prop :=
  match t.direction with
  | .HORIZONTAL =>
      patrolInvAxis ((t.startX * TILE_SIZE : Int) : ℚ)
        (((t.startX + t.length - 1) * TILE_SIZE : Int) : ℚ) MONSTER_SPEED
        m.direction m.x
  | .VERTICAL =>
      patrolInvAxis ((t.startY * TILE_SIZE : Int) : ℚ)
        (((t.startY + t.length - 1) * TILE_SIZE : Int) : ℚ) MONSTER_SPEED
        m.direction m.y
  | .NONE => False

/-- The enemy's along-axis grid tile lies within the home tunnel span. -/
def inSpanAlong (t : Tunnel) (m : Enemy) : Prop :=
  match t.direction with
  | .HORIZONTAL => t.startX ≤ gridOf m.x ∧ gridOf m.x < t.startX + t.length
  | .VERTICAL => t.startY ≤ gridOf m.y ∧ gridOf m.y < t.startY + t.length
  | .NONE => False

theorem gridOf_nonneg (q : ℚ) (h : 0 ≤ q) : gridOf q = ⌊q⌋ / 32 := by
  rw [gridOf, truncQ, if_pos h, show TILE_SIZE = 32 from rfl]
  exact Int.tdiv_eq_ediv (Int.floor_nonneg.mpr h) (by norm_num)

theorem patrolInvAxis_grid (s len : Int) (p : ℚ) (d : Int)
    (hs : 0 ≤ s) (hlen : 1 ≤ len)
    (hinv : patrolInvAxis ((s * 32 : Int) : ℚ) (((s + len - 1) * 32 : Int) : ℚ)
      MONSTER_SPEED d p) :
    s ≤ gridOf p ∧ gridOf p < s + len := by
  rcases hinv with ⟨hd, hlo, hhi⟩ | ⟨hd, hlo, hhi⟩ <;>
      norm_num [MONSTER_SPEED] at hlo hhi <;> push_cast at hlo hhi
  · have hsq : (0 : ℚ) ≤ (s : ℚ) * 32 := by positivity
    have h0 : (0 : ℚ) ≤ p := by linarith
    rw [gridOf_nonneg p h0]
    have h1 : s * 32 ≤ ⌊p⌋ := by
      rw [Int.le_floor]
      push_cast
      linarith
    have h2 : ⌊p⌋ < (s + len - 1) * 32 + 1 := by
      rw [Int.floor_lt]
      push_cast
      linarith
    omega
  · have hsq : (0 : ℚ) ≤ (s : ℚ) * 32 := by positivity
    have h0 : (0 : ℚ) ≤ p := by linarith
    rw [gridOf_nonneg p h0]
    have h1 : s * 32 ≤ ⌊p⌋ := by
      rw [Int.le_floor]
      push_cast
      linarith
    have h2 : ⌊p⌋ < (s + len - 1) * 32 + 1 := by
      rw [Int.floor_lt]
      push_cast
      linarith
    omega

theorem patrolInvAxis_step (s len : Int) (p : ℚ) (d : Int)
    (hs : 0 ≤ s) (hlen : 1 ≤ len)
    (hinv : patrolInvAxis ((s * 32 : Int) : ℚ) (((s + len - 1) * 32 : Int) : ℚ)
      MONSTER_SPEED d p) :
    ((gridOf (p + MONSTER_SPEED * (d : ℚ)) ≤ s ∨
        gridOf (p + MONSTER_SPEED * (d : ℚ)) ≥ s + len - 1) →
      patrolInvAxis ((s * 32 : Int) : ℚ) (((s + len - 1) * 32 : Int) : ℚ)
        MONSTER_SPEED (d * (-1)) (p + MONSTER_SPEED * (d : ℚ))) ∧
    (¬(gridOf (p + MONSTER_SPEED * (d : ℚ)) ≤ s ∨
        gridOf (p + MONSTER_SPEED * (d : ℚ)) ≥ s + len - 1) →
      patrolInvAxis ((s * 32 : Int) : ℚ) (((s + len - 1) * 32 : Int) : ℚ)
        MONSTER_SPEED d (p + MONSTER_SPEED * (d : ℚ))) := by
  have hsq : (0 : ℚ) ≤ (s : ℚ) * 32 := by positivity
  rcases hinv with ⟨hd, hlo, hhi⟩ | ⟨hd, hlo, hhi⟩
  · subst hd
    have hp2 : p + MONSTER_SPEED * ((1 : Int) : ℚ) = p + 1 / 2 := by
      norm_num [MONSTER_SPEED]
    rw [hp2]
    push_cast at hlo hhi
    have h0 : (0 : ℚ) ≤ p + 1 / 2 := by linarith
    constructor
    · intro hc
      refine Or.inr ⟨by norm_num, ?_, ?_⟩ <;> norm_num [MONSTER_SPEED] <;>
        push_cast <;> linarith
    · intro hc
      push_neg at hc
      refine Or.inl ⟨rfl, by push_cast; linarith, ?_⟩
      rw [gridOf_nonneg _ h0] at hc
      have hup : ⌊p + 1 / 2⌋ < (s + len - 1) * 32 := by omega
      have := Int.floor_lt.mp hup
      push_cast at this ⊢
      linarith
  · subst hd
    have hp2 : p + MONSTER_SPEED * ((-1 : Int) : ℚ) = p - 1 / 2 := by
      norm_num [MONSTER_SPEED]
      ring
    rw [hp2]
    norm_num [MONSTER_SPEED] at hlo hhi
    push_cast at hlo hhi
    have h0 : (0 : ℚ) ≤ p - 1 / 2 := by linarith
    constructor
    · intro hc
      refine Or.inl ⟨by norm_num, ?_, ?_⟩ <;> push_cast <;> linarith
    · intro hc
      push_neg at hc
      refine Or.inr ⟨rfl, ?_, ?_⟩
      · rw [gridOf_nonneg _ h0] at hc
        have hlow : (s + 1) * 32 ≤ ⌊p - 1 / 2⌋ := by omega
        have hfl : ((⌊p - 1 / 2⌋ : Int) : ℚ) ≤ p - 1 / 2 := Int.floor_le _
        have hcast : (((s + 1) * 32 : Int) : ℚ) ≤ ((⌊p - 1 / 2⌋ : Int) : ℚ) := by
          exact_mod_cast hlow
        norm_num [MONSTER_SPEED]
        push_cast at hcast ⊢
        linarith
      · norm_num [MONSTER_SPEED]
        push_cast
        linarith

theorem monsterMoveInTunnel_patrolInv (t : Tunnel) (m : Enemy)
    (hs : 0 ≤ alongStart t) (hlen : 1 ≤ t.length) (hinv : patrolInv t m) :
    patrolInv t (monsterMoveInTunnel t m) := by
  cases hmove : (!m.alive || !m.inTunnel) with
  | true => simpa [monsterMoveInTunnel, hmove] using hinv
  | false =>
    cases hd : t.direction with
    | NONE => simp [patrolInv, hd] at hinv
    | HORIZONTAL =>
      have hs2 : 0 ≤ t.startX := by simpa [alongStart, hd] using hs
      have hinv2 : patrolInvAxis ((t.startX * 32 : Int) : ℚ)
          (((t.startX + t.length - 1) * 32 : Int) : ℚ) MONSTER_SPEED
          m.direction m.x := by
        simpa [patrolInv, hd, TILE_SIZE] using hinv
      by_cases hc : gridOf (m.x + MONSTER_SPEED * (m.direction : ℚ)) ≤ t.startX ∨
          gridOf (m.x + MONSTER_SPEED * (m.direction : ℚ)) ≥ t.startX + t.length - 1
      · have hres : monsterMoveInTunnel t m =
            { m with x := m.x + MONSTER_SPEED * (m.direction : ℚ),
                     direction := m.direction * (-1) } := by
          simp [monsterMoveInTunnel, hmove, hd, hc]
          omega
        rw [hres]
        have hgoal :=
          (patrolInvAxis_step t.startX t.length m.x m.direction hs2 hlen hinv2).1 hc
        simpa [patrolInv, hd, TILE_SIZE] using hgoal
      · have hres : monsterMoveInTunnel t m =
            { m with x := m.x + MONSTER_SPEED * (m.direction : ℚ) } := by
          simp [monsterMoveInTunnel, hmove, hd, hc]
          omega
        rw [hres]
        have hgoal :=
          (patrolInvAxis_step t.startX t.length m.x m.direction hs2 hlen hinv2).2 hc
        simpa [patrolInv, hd, TILE_SIZE] using hgoal
    | VERTICAL =>
      have hs2 : 0 ≤ t.startY := by simpa [alongStart, hd] using hs
      have hinv2 : patrolInvAxis ((t.startY * 32 : Int) : ℚ)
          (((t.startY + t.length - 1) * 32 : Int) : ℚ) MONSTER_SPEED
          m.direction m.y := by
        simpa [patrolInv, hd, TILE_SIZE] using hinv
      by_cases hc : gridOf (m.y + MONSTER_SPEED * (m.direction : ℚ)) ≤ t.startY ∨
          gridOf (m.y + MONSTER_SPEED * (m.direction : ℚ)) ≥ t.startY + t.length - 1
      · have hres : monsterMoveInTunnel t m =
            { m with y := m.y + MONSTER_SPEED * (m.direction : ℚ),
                     direction := m.direction * (-1) } := by
          simp [monsterMoveInTunnel, hmove, hd, hc]
          omega
        rw [hres]
        have hgoal :=
          (patrolInvAxis_step t.startY t.length m.y m.direction hs2 hlen hinv2).1 hc
        simpa [patrolInv, hd, TILE_SIZE] using hgoal
      · have hres : monsterMoveInTunnel t m =
            { m with y := m.y + MONSTER_SPEED * (m.direction : ℚ) } := by
          simp [monsterMoveInTunnel, hmove, hd, hc]
          omega
        rw [hres]
        have hgoal :=
          (patrolInvAxis_step t.startY t.length m.y m.direction hs2 hlen hinv2).2 hc
        simpa [patrolInv, hd, TILE_SIZE] using hgoal

theorem dragonMoveInTunnel_eq_monster :
    dragonMoveInTunnel = monsterMoveInTunnel := by
  funext t m
  unfold dragonMoveInTunnel monsterMoveInTunnel DRAGON_SPEED MONSTER_SPEED
  rfl

theorem patrolInv_inSpanAlong (t : Tunnel) (m : Enemy)
    (hs : 0 ≤ alongStart t) (hlen : 1 ≤ t.length) (hinv : patrolInv t m) :
    inSpanAlong t m := by
  cases hd : t.direction with
  | NONE => simp [patrolInv, hd] at hinv
  | HORIZONTAL =>
    have hs2 : 0 ≤ t.startX := by simpa [alongStart, hd] using hs
    have hinv2 : patrolInvAxis ((t.startX * 32 : Int) : ℚ)
        (((t.startX + t.length - 1) * 32 : Int) : ℚ) MONSTER_SPEED
        m.direction m.x := by
      simpa [patrolInv, hd, TILE_SIZE] using hinv
    have hgrid := patrolInvAxis_grid t.startX t.length m.x m.direction hs2 hlen hinv2
    simpa [inSpanAlong, hd] using hgrid
  | VERTICAL =>
    have hs2 : 0 ≤ t.startY := by simpa [alongStart, hd] using hs
    have hinv2 : patrolInvAxis ((t.startY * 32 : Int) : ℚ)
        (((t.startY + t.length - 1) * 32 : Int) : ℚ) MONSTER_SPEED
        m.direction m.y := by
      simpa [patrolInv, hd, TILE_SIZE] using hinv
    have hgrid := patrolInvAxis_grid t.startY t.length m.y m.direction hs2 hlen hinv2
    simpa [inSpanAlong, hd] using hgrid

/-- C7 counterexample: for the horizontal tunnel over tiles 1..4, the
enemy at x = 159.5 (grid tile 4, inside the span) with direction 1 moves
to x = 160, grid tile 5, outside the span after a single patrol step: the
claim's hypothesis, that only the grid tile lies in the span, is too
weak. -/
theorem patrol_can_leave_span :
    inSpanAlong ⟨1, 2, 4, .HORIZONTAL, true, false⟩
      ⟨319 / 2, 64, true, true, false, 0, 1⟩ ∧
    ¬ inSpanAlong ⟨1, 2, 4, .HORIZONTAL, true, false⟩
      (monsterMoveInTunnel ⟨1, 2, 4, .HORIZONTAL, true, false⟩
        ⟨319 / 2, 64, true, true, false, 0, 1⟩) := by
  have hg : gridOf (319 / 2 : ℚ) = 4 := by
    rw [gridOf_nonneg _ (by norm_num), show ⌊(319 / 2 : ℚ)⌋ = 159 by norm_num]
    decide
  have hg160 : gridOf (160 : ℚ) = 5 := by
    rw [gridOf_nonneg _ (by norm_num), show ⌊(160 : ℚ)⌋ = 160 by norm_num]
    decide
  have hx2 : (319 / 2 : ℚ) + MONSTER_SPEED = 160 := by
    norm_num [MONSTER_SPEED]
  have hgx : gridOf (319 / 2 + MONSTER_SPEED) = 5 := by
    rw [hx2]
    exact hg160
  have hres : monsterMoveInTunnel ⟨1, 2, 4, .HORIZONTAL, true, false⟩
      ⟨319 / 2, 64, true, true, false, 0, 1⟩ =
      ⟨160, 64, true, true, false, 0, -1⟩ := by
    simp [monsterMoveInTunnel, hx2, hgx]
    omega
  constructor
  · simp [inSpanAlong, hg]
  · rw [hres]
    simp [inSpanAlong, hg160]

/-- C7 (amended): any state satisfying the patrol invariant, among them
the spawn state placed at the tunnel's middle tile origin, keeps the
invariant under any number of Monster or Dragon patrol steps, and so its
along-axis grid tile never leaves the home tunnel's span. -/
theorem patrol_stays_in_span (t : Tunnel) (m : Enemy) (n : Nat)
    (hs : 0 ≤ alongStart t) (hlen : 1 ≤ t.length) (hinv : patrolInv t m) :
    patrolInv t ((fun e => monsterMoveInTunnel t e)^[n] m) ∧
    inSpanAlong t ((fun e => monsterMoveInTunnel t e)^[n] m) ∧
    patrolInv t ((fun e => dragonMoveInTunnel t e)^[n] m) ∧
    inSpanAlong t ((fun e => dragonMoveInTunnel t e)^[n] m) ∧
    patrolInv t ⟨(((alongStart t + t.length.tdiv 2) * TILE_SIZE : Int) : ℚ),
      (((alongStart t + t.length.tdiv 2) * TILE_SIZE : Int) : ℚ), true, true, false, 0, 1⟩ := by
  have hmono : ∀ k, patrolInv t ((fun e => monsterMoveInTunnel t e)^[k] m) := by
    intro k
    induction k with
    | zero => simpa using hinv
    | succ k ih =>
      rw [Function.iterate_succ_apply']
      exact monsterMoveInTunnel_patrolInv t _ hs hlen ih
  have hdm : (fun e => dragonMoveInTunnel t e) = fun e => monsterMoveInTunnel t e := by
    rw [dragonMoveInTunnel_eq_monster]
  have htd : t.length.tdiv 2 = t.length / 2 :=
    Int.tdiv_eq_ediv (by omega) (by norm_num)
  have hspawn : patrolInv t
      ⟨(((alongStart t + t.length.tdiv 2) * TILE_SIZE : Int) : ℚ),
        (((alongStart t + t.length.tdiv 2) * TILE_SIZE : Int) : ℚ),
        true, true, false, 0, 1⟩ := by
    cases hd : t.direction with
    | NONE =>
      simp [patrolInv, hd] at hinv
    | HORIZONTAL =>
      have hsx : alongStart t = t.startX := by simp [alongStart, hd]
      have hb1 : (t.startX * TILE_SIZE : Int) ≤
          (alongStart t + t.length.tdiv 2) * TILE_SIZE := by
        rw [hsx, htd, show TILE_SIZE = (32 : Int) from rfl]
        omega
      have hb2 : ((alongStart t + t.length.tdiv 2) * TILE_SIZE : Int) ≤
          (t.startX + t.length - 1) * TILE_SIZE := by
        rw [hsx, htd, show TILE_SIZE = (32 : Int) from rfl]
        omega
      have key : patrolInvAxis ((t.startX * TILE_SIZE : Int) : ℚ)
          (((t.startX + t.length - 1) * TILE_SIZE : Int) : ℚ) MONSTER_SPEED (1 : Int)
          (((alongStart t + t.length.tdiv 2) * TILE_SIZE : Int) : ℚ) :=
        Or.inl ⟨rfl, by exact_mod_cast hb1, by exact_mod_cast hb2⟩
      simpa [patrolInv, hd] using key
    | VERTICAL =>
      have hsy : alongStart t = t.startY := by simp [alongStart, hd]
      have hb1 : (t.startY * TILE_SIZE : Int) ≤
          (alongStart t + t.length.tdiv 2) * TILE_SIZE := by
        rw [hsy, htd, show TILE_SIZE = (32 : Int) from rfl]
        omega
      have hb2 : ((alongStart t + t.length.tdiv 2) * TILE_SIZE : Int) ≤
          (t.startY + t.length - 1) * TILE_SIZE := by
        rw [hsy, htd, show TILE_SIZE = (32 : Int) from rfl]
        omega
      have key : patrolInvAxis ((t.startY * TILE_SIZE : Int) : ℚ)
          (((t.startY + t.length - 1) * TILE_SIZE : Int) : ℚ) MONSTER_SPEED (1 : Int)
          (((alongStart t + t.length.tdiv 2) * TILE_SIZE : Int) : ℚ) :=
        Or.inl ⟨rfl, by exact_mod_cast hb1, by exact_mod_cast hb2⟩
      simpa [patrolInv, hd] using key
  exact ⟨hmono n, patrolInv_inSpanAlong t _ hs hlen (hmono n),
    by rw [hdm]; exact hmono n,
    by rw [hdm]; exact patrolInv_inSpanAlong t _ hs hlen (hmono n), hspawn⟩

/-- Witness for the amended C7: an enemy at the tile-3 origin of the
horizontal tunnel over tiles 1..4 stays within the span after three
patrol steps. -/
theorem patrol_stays_in_span_witness :
    inSpanAlong ⟨1, 2, 4, .HORIZONTAL, true, false⟩
      ((fun e => monsterMoveInTunnel ⟨1, 2, 4, .HORIZONTAL, true, false⟩ e)^[3]
        ⟨96, 64, true, true, false, 0, 1⟩) :=
  (patrol_stays_in_span ⟨1, 2, 4, .HORIZONTAL, true, false⟩
      ⟨96, 64, true, true, false, 0, 1⟩ 3 (by decide) (by decide)
      (Or.inl ⟨by norm_num, by norm_num [TILE_SIZE], by norm_num [TILE_SIZE]⟩)).2.1

end DigDug
